import Mathlib

/-!
Shallow embedding of `brazil_types/types.py`: the `CNPJ` and `CPF` value
types (Brazilian legal-entity and individual taxpayer identifiers), with
their `clean`, `validate`, `format`, `empty`, `valid`, `raiz` and
`extensao` operations, followed by theorems checking the specification's
claims against this embedding.

Modeling conventions:
* a Python argument that may be `None`, an `int` or a `str` is a `PyArg`;
* a raised Python exception is an `Except.error` carrying a `PyErr`
  describing the exception kind (the `ValueError` raised by `format`
  carries the offending format code and the type name, exactly the data
  interpolated into the real message);
* `'{0:011d}'.format(n)` / `'{0:014d}'.format(n)` are `natPad 11` /
  `natPad 14`; `str(n)` for a natural number is `natStr n`; both are
  built from a structural big-endian decimal-digit function so that they
  evaluate inside the kernel;
* Python string indexing `s[i]` on in-range indices is `List.getD` with a
  default that is never reached on the inputs the code feeds it;
  slices `s[a:b]` and `s[-n:]` are `sliceStr` and `lastN`.
-/

namespace BrazilTypes

/-- Numeric value of an ASCII decimal digit character: Python `int(c)`
for a single digit character `c`. -/
def charVal (c : Char) : Nat := c.toNat - 48

/-- The ASCII character of a decimal digit value. -/
def digitChar (d : Nat) : Char := Char.ofNat (48 + d)

/-- Python `re.sub('[^0-9]', '', s)`: keep only the ASCII digits of `s`. -/
def stripOther (s : String) : String := String.mk (s.data.filter Char.isDigit)

/-- Python `int(s)` for a nonempty string of decimal digits. -/
def strToNat (s : String) : Nat := s.data.foldl (fun a c => 10 * a + charVal c) 0

/-- Big-endian decimal digit values of `n`, empty for `0`; the first
argument is structural fuel (any fuel `≥ n` gives the digits of `n`). -/
def natDigitsGo : Nat → Nat → List Nat
  | 0, _ => []
  | fuel + 1, n => if n = 0 then [] else natDigitsGo fuel (n / 10) ++ [n % 10]

/-- Big-endian decimal digits of `n`, with `[0]` for zero: the digit
values of Python `str(n)` for a nonnegative integer `n`. -/
def natDigitsBE (n : Nat) : List Nat := if n = 0 then [0] else natDigitsGo n n

/-- Python `str(n)` (equivalently `'{0}'.format(n)`) for a natural `n`. -/
def natStr (n : Nat) : String := String.mk ((natDigitsBE n).map digitChar)

/-- Python `'{0:0Wd}'.format(n)` with width `W = w`: the decimal digits
of `n`, left-padded with zeros to width `w`, never truncated. -/
def natPad (w n : Nat) : String :=
  String.mk ((List.replicate (w - (natDigitsBE n).length) 0 ++ natDigitsBE n).map digitChar)

/-- Python slice `s[a:b]` for nonnegative bounds `a ≤ b`. -/
def sliceStr (s : String) (a b : Nat) : String :=
  String.mk ((s.data.drop a).take (b - a))

/-- Python slice `s[-n:]` (for strings of length at least `n` this is the
last `n` characters). -/
def lastN (s : String) (n : Nat) : String :=
  String.mk (s.data.drop (s.data.length - n))

/-- Python `int(s[i])`: the digit value of the character of `s` at
index `i`; the default is never reached on in-range indices. -/
def digAt (s : String) (i : Nat) : Nat := charVal (s.data.getD i '0')

/-- A Python argument: `None`, a nonnegative `int`, or a `str`. -/
inductive PyArg where
  | null : PyArg
  | int : Nat → PyArg
  | str : String → PyArg
deriving DecidableEq

/-- A raised Python exception, by kind and payload.  `valueErr code ty`
is the `ValueError` whose message interpolates the unknown format code
and the type name; `intParseErr` is the `ValueError` of `int('')`;
`typeErr` is the `TypeError` of formatting `None` with a width spec. -/
inductive PyErr where
  | valueErr (code : String) (typeName : String) : PyErr
  | intParseErr : PyErr
  | typeErr : PyErr
deriving DecidableEq

/-- A `CNPJ` instance: its single attribute, the stored string
`self._cnpj`. -/
structure CNPJ where
  _cnpj : String
deriving DecidableEq

/-- `CNPJ.clean`: on a string, strip every non-digit character and parse
the remainder with `int` (which raises on an empty remainder); then
render with `'{0:014d}'.format`. -/
def CNPJ.clean : PyArg → Except PyErr String
  | .int n => .ok (natPad 14 n)
  | .str s =>
      let ds := stripOther s
      if ds.data.isEmpty then .error .intParseErr
      else .ok (natPad 14 (strToNat ds))
  | .null => .error .typeErr

/-- The CNPJ weight table `digitos_validacao`. -/
def CNPJ.digitosValidacao : List Nat := [6, 5, 4, 3, 2, 9, 8, 7, 6, 5, 4, 3, 2]

/-- The local `mod11` reduction of `CNPJ.validate`:
`value = value % 11; 11 - value if value > 1 else 0`. -/
def CNPJ.mod11 (value : Nat) : Nat :=
  let v := value % 11
  if v > 1 then 11 - v else 0

/-- The body of `CNPJ.validate` after cleaning: compute the two check
digits and compare `cnpj[-2:]` with `'{0}{1}'.format(dig1, dig2)`. -/
def CNPJ.checkStr (cnpj : String) : Bool :=
  let dig1 := CNPJ.mod11 (((List.range' 1 12).map
    (fun i => CNPJ.digitosValidacao.getD i 0 * digAt cnpj (i - 1))).sum)
  let dig2 := CNPJ.mod11 (((List.range 13).map
    (fun i => CNPJ.digitosValidacao.getD i 0 * digAt cnpj i)).sum)
  lastN cnpj 2 == natStr dig1 ++ natStr dig2

/-- `CNPJ.validate`: `None` validates to `False`; otherwise clean and
compare the check digits. -/
def CNPJ.validate (cnpj : PyArg) : Except PyErr Bool :=
  match cnpj with
  | .null => .ok false
  | v => (CNPJ.clean v).map CNPJ.checkStr

/-- `CNPJ.__init__`: store `CNPJ.clean(cnpj)` in `self._cnpj`. -/
def CNPJ.init (v : PyArg) : Except PyErr CNPJ := (CNPJ.clean v).map CNPJ.mk

/-- `CNPJ.empty`: `int(self._cnpj) == 0`. -/
def CNPJ.empty (c : CNPJ) : Bool := strToNat c._cnpj == 0

/-- `CNPJ.extensao`: `self._cnpj[8:12]`. -/
def CNPJ.extensao (c : CNPJ) : String := sliceStr c._cnpj 8 12

/-- `CNPJ.raiz`: `self._cnpj[:8]`. -/
def CNPJ.raiz (c : CNPJ) : String := sliceStr c._cnpj 0 8

/-- `CNPJ.valid`: `CNPJ.validate(self._cnpj)`. -/
def CNPJ.valid (c : CNPJ) : Except PyErr Bool := CNPJ.validate (.str c._cnpj)

/-- `CNPJ.format`: `''` or `'f'` gives the punctuated form built from
slices of the re-cleaned stored string; `'r'` gives the stored string;
anything else raises the unknown-format-code `ValueError`. -/
def CNPJ.format (c : CNPJ) (formatSpec : String) : Except PyErr String :=
  if formatSpec = "" ∨ formatSpec = "f" then
    (CNPJ.clean (.str c._cnpj)).map (fun cnpj =>
      sliceStr cnpj 0 2 ++ "." ++ sliceStr cnpj 2 5 ++ "." ++ sliceStr cnpj 5 8 ++ "/" ++
        sliceStr cnpj 8 12 ++ "-" ++ sliceStr cnpj 12 14)
  else if formatSpec = "r" then .ok c._cnpj
  else .error (.valueErr formatSpec "CNPJ")

/-- A `CPF` instance: its single attribute, the stored string
`self._cpf`. -/
structure CPF where
  _cpf : String
deriving DecidableEq

/-- `CPF.clean`: on a string, strip every non-digit character and parse
the remainder with `int` (which raises on an empty remainder); then
render with `'{0:011d}'.format`. -/
def CPF.clean : PyArg → Except PyErr String
  | .int n => .ok (natPad 11 n)
  | .str s =>
      let ds := stripOther s
      if ds.data.isEmpty then .error .intParseErr
      else .ok (natPad 11 (strToNat ds))
  | .null => .error .typeErr

/-- The local `mod11` reduction of `CPF.validate`: `(value % 11) % 10`. -/
def CPF.mod11 (value : Nat) : Nat := (value % 11) % 10

/-- The body of `CPF.validate` after cleaning: compute the two check
digits and compare `cpf[-2:]` with `'{0}{1}'.format(dig1, dig2)`. -/
def CPF.checkStr (cpf : String) : Bool :=
  let dig1 := CPF.mod11 (((List.range 9).map (fun i => (i + 1) * digAt cpf i)).sum)
  let dig2 := CPF.mod11 (((List.range' 1 9).map (fun i => i * digAt cpf i)).sum)
  lastN cpf 2 == natStr dig1 ++ natStr dig2

/-- `CPF.validate`: `None` validates to `False`; otherwise clean and
compare the check digits. -/
def CPF.validate (cpf : PyArg) : Except PyErr Bool :=
  match cpf with
  | .null => .ok false
  | v => (CPF.clean v).map CPF.checkStr

/-- `CPF.__init__`: store `CPF.clean(cpf)` in `self._cpf`. -/
def CPF.init (v : PyArg) : Except PyErr CPF := (CPF.clean v).map CPF.mk

/-- `CPF.empty`: `int(self._cpf) == 0`. -/
def CPF.empty (c : CPF) : Bool := strToNat c._cpf == 0

/-- `CPF.valid`: `CPF.validate(self._cpf)`. -/
def CPF.valid (c : CPF) : Except PyErr Bool := CPF.validate (.str c._cpf)

/-- `CPF.format`: `''` or `'f'` gives the punctuated form built from
slices of the re-cleaned stored string; `'r'` gives the stored string;
anything else raises the unknown-format-code `ValueError`. -/
def CPF.format (c : CPF) (formatSpec : String) : Except PyErr String :=
  if formatSpec = "" ∨ formatSpec = "f" then
    (CPF.clean (.str c._cpf)).map (fun cpf =>
      sliceStr cpf 0 3 ++ "." ++ sliceStr cpf 3 6 ++ "." ++ sliceStr cpf 6 9 ++ "-" ++
        sliceStr cpf 9 11)
  else if formatSpec = "r" then .ok c._cpf
  else .error (.valueErr formatSpec "CPF")

/-- The numeric value of a big-endian list of decimal digit values (the
value `int` parses from the corresponding digit string). -/
def natFromBE (L : List Nat) : Nat := L.foldl (fun a d => 10 * a + d) 0

deriving instance DecidableEq for Except

theorem charVal_digitChar {d : Nat} (h : d < 10) : charVal (digitChar d) = d := by
  interval_cases d <;> rfl
theorem isDigit_digitChar {d : Nat} (h : d < 10) : (digitChar d).isDigit = true := by
  interval_cases d <;> rfl
theorem charVal_lt_ten {c : Char} (h : c.isDigit = true) : charVal c < 10 := by
  simp only [Char.isDigit, Bool.and_eq_true, decide_eq_true_eq] at h
  have h2 : c.val.toNat ≤ 57 := by
    have h0 : c.val ≤ 57 := h.2
    rw [UInt32.le_def, BitVec.le_def] at h0
    exact h0
  simp only [charVal, Char.toNat]
  omega
theorem digitChar_charVal {c : Char} (h : c.isDigit = true) : digitChar (charVal c) = c := by
  simp only [Char.isDigit, Bool.and_eq_true, decide_eq_true_eq] at h
  have h1 : 48 ≤ c.val.toNat := by
    have h0 : (48 : UInt32) ≤ c.val := h.1
    rw [UInt32.le_def, BitVec.le_def] at h0
    exact h0
  have h2 : 48 + (c.toNat - 48) = c.toNat := by
    simp only [Char.toNat]
    omega
  rw [digitChar, charVal, h2, Char.ofNat_toNat]


theorem natDigitsGo_eq : ∀ (fuel n : Nat), n ≤ fuel → natDigitsGo fuel n = (Nat.digits 10 n).reverse
  | 0, n, h => by
      have h0 : n = 0 := by omega
      subst h0
      simp [natDigitsGo]
  | fuel + 1, n, h => by
      by_cases h0 : n = 0
      · simp [natDigitsGo, h0]
      · have hd : Nat.digits 10 n = n % 10 :: Nat.digits 10 (n / 10) :=
          Nat.digits_def' (by norm_num) (Nat.pos_of_ne_zero h0)
        have hlt : n / 10 < n := Nat.div_lt_self (Nat.pos_of_ne_zero h0) (by norm_num)
        have hih : natDigitsGo fuel (n / 10) = (Nat.digits 10 (n / 10)).reverse :=
          natDigitsGo_eq fuel (n / 10) (by omega)
        simp [natDigitsGo, h0, hih, hd]

theorem natDigitsBE_eq {n : Nat} (h : n ≠ 0) : natDigitsBE n = (Nat.digits 10 n).reverse := by
  simp only [natDigitsBE, h, if_false]
  exact natDigitsGo_eq n n le_rfl

theorem natDigitsBE_lt {n d : Nat} (h : d ∈ natDigitsBE n) : d < 10 := by
  by_cases h0 : n = 0
  · subst h0
    simp [natDigitsBE] at h
    omega
  · rw [natDigitsBE_eq h0, List.mem_reverse] at h
    exact Nat.digits_lt_base (by norm_num) h

theorem natDigitsBE_ne_nil (n : Nat) : natDigitsBE n ≠ [] := by
  by_cases h0 : n = 0
  · simp [natDigitsBE, h0]
  · rw [natDigitsBE_eq h0]
    simp only [ne_eq, List.reverse_eq_nil_iff]
    exact Nat.digits_ne_nil_iff_ne_zero.mpr h0

theorem natDigitsBE_len_le {n k : Nat} (hk : 1 ≤ k) (h : n < 10 ^ k) :
    (natDigitsBE n).length ≤ k := by
  by_cases h0 : n = 0
  · subst h0
    simp [natDigitsBE]
    omega
  · rw [natDigitsBE_eq h0, List.length_reverse, Nat.digits_len 10 n (by norm_num) h0]
    have := Nat.log_lt_of_lt_pow h0 h
    omega

theorem foldl_digits_eq (L : List Nat) : ∀ a : Nat,
    L.foldl (fun x d => 10 * x + d) a = a * 10 ^ L.length + Nat.ofDigits 10 L.reverse := by
  induction L with
  | nil =>
      intro a
      simp [Nat.ofDigits]
  | cons d tl ih =>
      intro a
      simp only [List.foldl_cons, List.reverse_cons, List.length_cons]
      rw [ih, Nat.ofDigits_append]
      simp [Nat.ofDigits]
      ring

theorem natFromBE_eq (L : List Nat) : natFromBE L = Nat.ofDigits 10 L.reverse := by
  simpa [natFromBE] using foldl_digits_eq L 0

theorem strToNat_eq (s : String) : strToNat s = natFromBE (s.data.map charVal) := by
  rw [strToNat, natFromBE, List.foldl_map]

theorem ofDigits_replicate_zero (k : Nat) : Nat.ofDigits 10 (List.replicate k 0) = 0 := by
  induction k with
  | zero => rfl
  | succ m ih => simp [List.replicate_succ, Nat.ofDigits, ih]

theorem padBE_eq (L : List Nat) (h : ∀ d ∈ L, d < 10) (hne : L ≠ []) :
    List.replicate (L.length - (natDigitsBE (natFromBE L)).length) 0
      ++ natDigitsBE (natFromBE L) = L := by
  induction L with
  | nil => exact absurd rfl hne
  | cons d tl ih =>
      by_cases hd : d = 0
      · subst hd
        rcases eq_or_ne tl [] with htl | htl
        · subst htl
          decide
        · have hval : natFromBE (0 :: tl) = natFromBE tl := by
            rw [natFromBE_eq, natFromBE_eq]
            simp [Nat.ofDigits_append]
          rw [hval]
          have ihh := ih (fun x hx => h x (List.mem_cons_of_mem _ hx)) htl
          have hlen : (natDigitsBE (natFromBE tl)).length ≤ tl.length := by
            have hc := congrArg List.length ihh
            simp only [List.length_append, List.length_replicate] at hc
            omega
          have hstep : (0 :: tl).length - (natDigitsBE (natFromBE tl)).length
              = (tl.length - (natDigitsBE (natFromBE tl)).length) + 1 := by
            simp only [List.length_cons]
            omega
          rw [hstep, List.replicate_succ, List.cons_append, ihh]
      · have hmem : ∀ l ∈ tl.reverse ++ [d], l < 10 := by
          intro x hx
          rcases List.mem_append.mp hx with hx | hx
          · exact h x (List.mem_cons_of_mem _ (List.mem_reverse.mp hx))
          · simp only [List.mem_singleton] at hx
            subst hx
            exact h x (List.mem_cons_self x tl)
        have hofd : Nat.digits 10 (Nat.ofDigits 10 (tl.reverse ++ [d])) = tl.reverse ++ [d] := by
          refine Nat.digits_ofDigits 10 (by norm_num) _ hmem ?_
          intro hh
          simpa [List.getLast_append] using hd
        have hval : natFromBE (d :: tl) = Nat.ofDigits 10 (tl.reverse ++ [d]) := by
          rw [natFromBE_eq]
          simp
        have hne0 : natFromBE (d :: tl) ≠ 0 := by
          rw [hval]
          intro h0
          rw [h0] at hofd
          simp at hofd
        have hBE : natDigitsBE (natFromBE (d :: tl)) = d :: tl := by
          rw [natDigitsBE_eq hne0, hval, hofd]
          simp
        rw [hBE]
        simp

theorem natPad_digit_str (s : String) (h : ∀ c ∈ s.data, c.isDigit = true)
    (hne : s.data ≠ []) : natPad s.data.length (strToNat s) = s := by
  have hmap : (s.data.map charVal).map digitChar = s.data := by
    rw [List.map_map]
    have hcc : ∀ c ∈ s.data, (digitChar ∘ charVal) c = id c := by
      intro c hc
      simp only [Function.comp_apply, id_eq]
      exact digitChar_charVal (h c hc)
    rw [List.map_congr_left hcc, List.map_id]
  have hlt : ∀ d ∈ s.data.map charVal, d < 10 := by
    intro x hx
    rcases List.mem_map.mp hx with ⟨c, hc, rfl⟩
    exact charVal_lt_ten (h c hc)
  have hlen : s.data.length = (s.data.map charVal).length := (List.length_map _ _).symm
  rw [natPad, strToNat_eq, hlen,
    padBE_eq _ hlt (by simpa using hne), hmap]

theorem strToNat_natPad (w n : Nat) : strToNat (natPad w n) = n := by
  rw [strToNat_eq]
  have hdata : (natPad w n).data
      = (List.replicate (w - (natDigitsBE n).length) 0 ++ natDigitsBE n).map digitChar := rfl
  rw [hdata, List.map_map]
  have hcc : ∀ d ∈ List.replicate (w - (natDigitsBE n).length) 0 ++ natDigitsBE n,
      (charVal ∘ digitChar) d = id d := by
    intro x hx
    simp only [Function.comp_apply, id_eq]
    rcases List.mem_append.mp hx with hx | hx
    · rw [List.eq_of_mem_replicate hx]
      rfl
    · exact charVal_digitChar (natDigitsBE_lt hx)
  rw [List.map_congr_left hcc, List.map_id, natFromBE_eq, List.reverse_append,
    List.reverse_replicate]
  by_cases h0 : n = 0
  · subst h0
    simp [natDigitsBE, Nat.ofDigits, ofDigits_replicate_zero]
  · rw [natDigitsBE_eq h0, List.reverse_reverse, Nat.ofDigits_append, Nat.ofDigits_digits,
      ofDigits_replicate_zero]
    ring


theorem String_mk_data (s : String) : String.mk s.data = s := rfl

theorem natPad_all_digits (w n : Nat) : ∀ c ∈ (natPad w n).data, c.isDigit = true := by
  intro c hc
  rcases List.mem_map.mp hc with ⟨d, hd, rfl⟩
  rcases List.mem_append.mp hd with hd | hd
  · rw [List.eq_of_mem_replicate hd]
    decide
  · exact isDigit_digitChar (natDigitsBE_lt hd)

theorem natPad_data_ne_nil (w n : Nat) : (natPad w n).data ≠ [] := by
  have h := natDigitsBE_ne_nil n
  simp only [natPad, ne_eq, List.map_eq_nil_iff, List.append_eq_nil]
  intro hc
  exact h hc.2

theorem natPad_len (w n : Nat) :
    (natPad w n).data.length = (w - (natDigitsBE n).length) + (natDigitsBE n).length := by
  simp [natPad]

theorem stripOther_digits {s : String} (h : ∀ c ∈ s.data, c.isDigit = true) :
    stripOther s = s := by
  rw [stripOther, List.filter_eq_self.mpr h, String_mk_data]

theorem CNPJ_clean_natPad (n : Nat) : CNPJ.clean (.str (natPad 14 n)) = .ok (natPad 14 n) := by
  have hs := stripOther_digits (natPad_all_digits 14 n)
  have hne : ((natPad 14 n).data.isEmpty) = false :=
    List.isEmpty_eq_false.mpr (natPad_data_ne_nil 14 n)
  simp [CNPJ.clean, hs, hne, strToNat_natPad]

theorem CPF_clean_natPad (n : Nat) : CPF.clean (.str (natPad 11 n)) = .ok (natPad 11 n) := by
  have hs := stripOther_digits (natPad_all_digits 11 n)
  have hne : ((natPad 11 n).data.isEmpty) = false :=
    List.isEmpty_eq_false.mpr (natPad_data_ne_nil 11 n)
  simp [CPF.clean, hs, hne, strToNat_natPad]

theorem CNPJ_clean_shape {v : PyArg} {s : String} (h : CNPJ.clean v = .ok s) :
    ∃ n, s = natPad 14 n := by
  cases v with
  | null => simp [CNPJ.clean] at h
  | int n =>
      refine ⟨n, ?_⟩
      simpa [CNPJ.clean] using h.symm
  | str t =>
      by_cases he : (stripOther t).data.isEmpty
      · simp [CNPJ.clean, he] at h
      · refine ⟨strToNat (stripOther t), ?_⟩
        simp [CNPJ.clean, he] at h
        exact h.symm

theorem CPF_clean_shape {v : PyArg} {s : String} (h : CPF.clean v = .ok s) :
    ∃ n, s = natPad 11 n := by
  cases v with
  | null => simp [CPF.clean] at h
  | int n =>
      refine ⟨n, ?_⟩
      simpa [CPF.clean] using h.symm
  | str t =>
      by_cases he : (stripOther t).data.isEmpty
      · simp [CPF.clean, he] at h
      · refine ⟨strToNat (stripOther t), ?_⟩
        simp [CPF.clean, he] at h
        exact h.symm

theorem CNPJ_init_shape {v : PyArg} {c : CNPJ} (h : CNPJ.init v = .ok c) :
    ∃ n, c._cnpj = natPad 14 n := by
  rw [CNPJ.init] at h
  cases hc : CNPJ.clean v with
  | error e => rw [hc] at h; exact absurd h (by simp [Except.map])
  | ok s =>
      rw [hc] at h
      simp [Except.map] at h
      rcases CNPJ_clean_shape hc with ⟨n, rfl⟩
      exact ⟨n, by rw [← h]⟩

theorem CPF_init_shape {v : PyArg} {c : CPF} (h : CPF.init v = .ok c) :
    ∃ n, c._cpf = natPad 11 n := by
  rw [CPF.init] at h
  cases hc : CPF.clean v with
  | error e => rw [hc] at h; exact absurd h (by simp [Except.map])
  | ok s =>
      rw [hc] at h
      simp [Except.map] at h
      rcases CPF_clean_shape hc with ⟨n, rfl⟩
      exact ⟨n, by rw [← h]⟩


theorem natDigitsBE_small {d : Nat} (h : d < 10) : natDigitsBE d = [d] := by
  interval_cases d <;> rfl

theorem natStr_single {d : Nat} (h : d < 10) : natStr d = String.mk [digitChar d] := by
  rw [natStr, natDigitsBE_small h]
  rfl

theorem String_mk_append (a b : List Char) :
    String.mk a ++ String.mk b = String.mk (a ++ b) := rfl

theorem getD_mem_of_lt {l : List Char} {k : Nat} (h : k < l.length) :
    l.getD k '0' ∈ l := by
  rw [List.getD_eq_getElem?_getD, List.getElem?_eq_getElem h]
  exact List.getElem_mem h

theorem digitChar_eq_iff {c : Char} {g : Nat} (hc : c.isDigit = true) (hg : g < 10) :
    c = digitChar g ↔ g = charVal c := by
  constructor
  · intro h
    subst h
    rw [charVal_digitChar hg]
  · intro h
    subst h
    exact (digitChar_charVal hc).symm

theorem check_cmp {s : String} {k g1 g2 : Nat} (h : s.data.length = k + 2)
    (hd : ∀ c ∈ s.data, c.isDigit = true) (hg1 : g1 < 10) (hg2 : g2 < 10) :
    (lastN s 2 == natStr g1 ++ natStr g2)
      = decide (g1 = digAt s k ∧ g2 = digAt s (k + 1)) := by
  have hk : k < s.data.length := by omega
  have hk1 : k + 1 < s.data.length := by omega
  have hlast : lastN s 2 = String.mk [s.data.getD k '0', s.data.getD (k + 1) '0'] := by
    rw [lastN]
    congr 1
    rw [show s.data.length - 2 = k by omega, List.drop_eq_getElem_cons hk,
      List.drop_eq_getElem_cons hk1, List.drop_eq_nil_of_le (by omega),
      List.getD_eq_getElem?_getD, List.getElem?_eq_getElem hk,
      List.getD_eq_getElem?_getD, List.getElem?_eq_getElem hk1]
    rfl
  rw [hlast, natStr_single hg1, natStr_single hg2, String_mk_append]
  apply Bool.eq_iff_iff.mpr
  rw [beq_iff_eq, decide_eq_true_iff]
  constructor
  · intro he
    have hl : [s.data.getD k '0', s.data.getD (k + 1) '0']
        = [digitChar g1, digitChar g2] := by
      exact congrArg String.data he
    have h1 : s.data.getD k '0' = digitChar g1 := by
      injection hl with ha hb
    have h2 : s.data.getD (k + 1) '0' = digitChar g2 := by
      injection hl with ha hb
      injection hb with hb1 hb2
    constructor
    · exact (digitChar_eq_iff (hd _ (getD_mem_of_lt hk)) hg1).mp h1
    · exact (digitChar_eq_iff (hd _ (getD_mem_of_lt hk1)) hg2).mp h2
  · rintro ⟨h1, h2⟩
    have e1 : s.data.getD k '0' = digitChar g1 :=
      (digitChar_eq_iff (hd _ (getD_mem_of_lt hk)) hg1).mpr h1
    have e2 : s.data.getD (k + 1) '0' = digitChar g2 :=
      (digitChar_eq_iff (hd _ (getD_mem_of_lt hk1)) hg2).mpr h2
    rw [e1, e2]
    rfl

theorem CNPJ_mod11_lt (v : Nat) : CNPJ.mod11 v < 10 := by
  have hv : v % 11 < 11 := Nat.mod_lt _ (by norm_num)
  rw [CNPJ.mod11]
  show (if v % 11 > 1 then 11 - v % 11 else 0) < 10
  split <;> omega

theorem CPF_checkStr_eq (s : String) (h : s.data.length = 11)
    (hd : ∀ c ∈ s.data, c.isDigit = true) :
    CPF.checkStr s = decide
      ((((List.range 9).map (fun i => (i + 1) * digAt s i)).sum % 11) % 10 = digAt s 9 ∧
       (((List.range' 1 9).map (fun i => i * digAt s i)).sum % 11) % 10 = digAt s 10) := by
  rw [CPF.checkStr]
  exact check_cmp (by omega) hd (Nat.mod_lt _ (by norm_num)) (Nat.mod_lt _ (by norm_num))

theorem CNPJ_checkStr_eq (s : String) (h : s.data.length = 14)
    (hd : ∀ c ∈ s.data, c.isDigit = true) :
    CNPJ.checkStr s = decide
      (CNPJ.mod11 (((List.range' 1 12).map
          (fun i => CNPJ.digitosValidacao.getD i 0 * digAt s (i - 1))).sum) = digAt s 12 ∧
       CNPJ.mod11 (((List.range 13).map
          (fun i => CNPJ.digitosValidacao.getD i 0 * digAt s i)).sum) = digAt s 13) := by
  rw [CNPJ.checkStr]
  exact check_cmp (by omega) hd (CNPJ_mod11_lt _) (CNPJ_mod11_lt _)

theorem CPF_clean_digit_str (s : String) (h1 : s.data.length = 11)
    (h2 : ∀ c ∈ s.data, c.isDigit = true) : CPF.clean (.str s) = .ok s := by
  have hs := stripOther_digits h2
  have hne : (stripOther s).data.isEmpty = false := by
    rw [hs]
    exact List.isEmpty_eq_false.mpr (by intro hh; rw [hh] at h1; simp at h1)
  have hnil : s.data ≠ [] := by
    intro hh
    rw [hh] at h1
    simp at h1
  have hpad : natPad 11 (strToNat s) = s := by
    have := natPad_digit_str s h2 hnil
    rwa [h1] at this
  simp [CPF.clean, hs, hne, hpad, hnil]

theorem CNPJ_clean_digit_str (s : String) (h1 : s.data.length = 14)
    (h2 : ∀ c ∈ s.data, c.isDigit = true) : CNPJ.clean (.str s) = .ok s := by
  have hs := stripOther_digits h2
  have hne : (stripOther s).data.isEmpty = false := by
    rw [hs]
    exact List.isEmpty_eq_false.mpr (by intro hh; rw [hh] at h1; simp at h1)
  have hnil : s.data ≠ [] := by
    intro hh
    rw [hh] at h1
    simp at h1
  have hpad : natPad 14 (strToNat s) = s := by
    have := natPad_digit_str s h2 hnil
    rwa [h1] at this
  simp [CNPJ.clean, hs, hne, hpad, hnil]


theorem CNPJ_stored_len {v : PyArg} {c : CNPJ} (h : CNPJ.init v = .ok c) :
    14 ≤ c._cnpj.data.length := by
  obtain ⟨n, hn⟩ := CNPJ_init_shape h
  rw [hn, natPad_len]
  omega

theorem CPF_stored_len {v : PyArg} {c : CPF} (h : CPF.init v = .ok c) :
    11 ≤ c._cpf.data.length := by
  obtain ⟨n, hn⟩ := CPF_init_shape h
  rw [hn, natPad_len]
  omega

/-- C9: for every constructed CNPJ, `raiz` is exactly the first 8
characters of the stored digit-string and `extensao` exactly characters
8–11 (4 characters), as pure substring extraction; in particular the
value 58414462000135 has raiz 58414462 and extensao 0001. -/
theorem cnpj_raiz_extensao (v : PyArg) (c : CNPJ) (h : CNPJ.init v = .ok c) :
    c.raiz = String.mk (c._cnpj.data.take 8) ∧
    c.extensao = String.mk ((c._cnpj.data.drop 8).take 4) ∧
    c.raiz.length = 8 ∧ c.extensao.length = 4 ∧
    (CNPJ.init (.int 58414462000135)).map (fun x => (x.raiz, x.extensao))
      = .ok ("58414462", "0001") := by
  have hlen := CNPJ_stored_len h
  refine ⟨rfl, rfl, ?_, ?_, by decide⟩
  · show (c._cnpj.data.take 8).length = 8
    rw [List.length_take]
    omega
  · show ((c._cnpj.data.drop 8).take 4).length = 4
    rw [List.length_take, List.length_drop]
    omega

/-- Witness for C9 at the concrete CNPJ 58414462000135. -/
theorem cnpj_raiz_extensao_witness :
    (CNPJ.mk "58414462000135").raiz = "58414462" ∧
    (CNPJ.mk "58414462000135").extensao.length = 4 := by
  have h : CNPJ.init (.int 58414462000135) = .ok (CNPJ.mk "58414462000135") := by decide
  have hr := cnpj_raiz_extensao (.int 58414462000135) (CNPJ.mk "58414462000135") h
  exact ⟨by rw [hr.1]; decide, hr.2.2.2.1⟩

/-- C7: on both types, `format` with any spec other than the empty
string, `f` and `r` raises the ValueError carrying the offending spec
and the type name; with one of those three specs it never raises. -/
theorem format_spec_errors :
    (∀ (v : PyArg) (c : CPF), CPF.init v = .ok c → ∀ sp : String,
      ((sp ≠ "" ∧ sp ≠ "f" ∧ sp ≠ "r") → c.format sp = .error (.valueErr sp "CPF")) ∧
      (sp = "" ∨ sp = "f" ∨ sp = "r" → (c.format sp).isOk = true)) ∧
    (∀ (v : PyArg) (c : CNPJ), CNPJ.init v = .ok c → ∀ sp : String,
      ((sp ≠ "" ∧ sp ≠ "f" ∧ sp ≠ "r") → c.format sp = .error (.valueErr sp "CNPJ")) ∧
      (sp = "" ∨ sp = "f" ∨ sp = "r" → (c.format sp).isOk = true)) := by
  constructor
  · intro v c h sp
    obtain ⟨n, hn⟩ := CPF_init_shape h
    constructor
    · rintro ⟨h1, h2, h3⟩
      simp [CPF.format, h1, h2, h3]
    · rintro (h1 | h1 | h1) <;> subst h1
      · simp [CPF.format, hn, CPF_clean_natPad, Except.map, Except.isOk, Except.toBool]
      · simp [CPF.format, hn, CPF_clean_natPad, Except.map, Except.isOk, Except.toBool]
      · simp [CPF.format, Except.isOk, Except.toBool]
  · intro v c h sp
    obtain ⟨n, hn⟩ := CNPJ_init_shape h
    constructor
    · rintro ⟨h1, h2, h3⟩
      simp [CNPJ.format, h1, h2, h3]
    · rintro (h1 | h1 | h1) <;> subst h1
      · simp [CNPJ.format, hn, CNPJ_clean_natPad, Except.map, Except.isOk, Except.toBool]
      · simp [CNPJ.format, hn, CNPJ_clean_natPad, Except.map, Except.isOk, Except.toBool]
      · simp [CNPJ.format, Except.isOk, Except.toBool]

/-- Witness for C7: an unknown spec `x` raises on a constructed CPF, and
spec `f` does not raise on a constructed CNPJ. -/
theorem format_spec_errors_witness :
    (CPF.mk "00000000000").format "x" = .error (.valueErr "x" "CPF") ∧
    ((CNPJ.mk "00000000000000").format "f").isOk = true := by
  have h1 : CPF.init (.int 0) = .ok (CPF.mk "00000000000") := by decide
  have h2 : CNPJ.init (.int 0) = .ok (CNPJ.mk "00000000000000") := by decide
  constructor
  · exact (format_spec_errors.1 (.int 0) _ h1 "x").1 (by decide)
  · exact (format_spec_errors.2 (.int 0) _ h2 "f").2 (by decide)


theorem drop_drop_lit {l : List Char} (a b c : Nat) (h : a + b = c) :
    (l.drop a).drop b = l.drop c := by
  rw [List.drop_drop, h]

theorem take_len_drop {l : List Char} {a b : Nat} (h : l.length = a + b) :
    (l.drop a).take b = l.drop a := by
  apply List.take_of_length_le
  rw [List.length_drop]
  omega

theorem cover_cpf {l : List Char} (h : l.length = 11) :
    l.take 3 ++ ((l.drop 3).take 3 ++ ((l.drop 6).take 3 ++ (l.drop 9).take 2)) = l := by
  rw [take_len_drop (by omega : l.length = 9 + 2),
    ← drop_drop_lit 6 3 9 (by norm_num), List.take_append_drop,
    ← drop_drop_lit 3 3 6 (by norm_num), List.take_append_drop,
    List.take_append_drop]

theorem cover_cnpj {l : List Char} (h : l.length = 14) :
    l.take 2 ++ ((l.drop 2).take 3 ++ ((l.drop 5).take 3 ++ ((l.drop 8).take 4
      ++ (l.drop 12).take 2))) = l := by
  rw [take_len_drop (by omega : l.length = 12 + 2),
    ← drop_drop_lit 8 4 12 (by norm_num), List.take_append_drop,
    ← drop_drop_lit 5 3 8 (by norm_num), List.take_append_drop,
    ← drop_drop_lit 2 3 5 (by norm_num), List.take_append_drop,
    List.take_append_drop]

theorem filter_take_drop {l : List Char} (hd : ∀ c ∈ l, c.isDigit = true) (a b : Nat) :
    ((l.drop a).take b).filter Char.isDigit = (l.drop a).take b :=
  List.filter_eq_self.mpr (fun c hc =>
    hd c (List.mem_of_mem_drop (List.mem_of_mem_take hc)))

theorem filter_take {l : List Char} (hd : ∀ c ∈ l, c.isDigit = true) (b : Nat) :
    (l.take b).filter Char.isDigit = l.take b :=
  List.filter_eq_self.mpr (fun c hc => hd c (List.mem_of_mem_take hc))

theorem cpf_formatted_strip {P : String} (hd : ∀ c ∈ P.data, c.isDigit = true)
    (hl : P.data.length = 11) :
    stripOther (sliceStr P 0 3 ++ "." ++ sliceStr P 3 6 ++ "." ++ sliceStr P 6 9 ++ "-" ++
      sliceStr P 9 11) = P := by
  have hdata : (sliceStr P 0 3 ++ "." ++ sliceStr P 3 6 ++ "." ++ sliceStr P 6 9 ++ "-" ++
      sliceStr P 9 11).data
      = P.data.take 3 ++ ['.'] ++ (P.data.drop 3).take 3 ++ ['.'] ++ (P.data.drop 6).take 3
        ++ ['-'] ++ (P.data.drop 9).take 2 := rfl
  rw [stripOther, hdata]
  simp only [List.filter_append, filter_take_drop hd, filter_take hd,
    show ['.'].filter Char.isDigit = [] from rfl,
    show ['-'].filter Char.isDigit = [] from rfl,
    List.nil_append, List.append_nil, List.append_assoc]
  rw [cover_cpf hl, String_mk_data]

theorem cnpj_formatted_strip {P : String} (hd : ∀ c ∈ P.data, c.isDigit = true)
    (hl : P.data.length = 14) :
    stripOther (sliceStr P 0 2 ++ "." ++ sliceStr P 2 5 ++ "." ++ sliceStr P 5 8 ++ "/" ++
      sliceStr P 8 12 ++ "-" ++ sliceStr P 12 14) = P := by
  have hdata : (sliceStr P 0 2 ++ "." ++ sliceStr P 2 5 ++ "." ++ sliceStr P 5 8 ++ "/" ++
      sliceStr P 8 12 ++ "-" ++ sliceStr P 12 14).data
      = P.data.take 2 ++ ['.'] ++ (P.data.drop 2).take 3 ++ ['.'] ++ (P.data.drop 5).take 3
        ++ ['/'] ++ (P.data.drop 8).take 4 ++ ['-'] ++ (P.data.drop 12).take 2 := rfl
  rw [stripOther, hdata]
  simp only [List.filter_append, filter_take_drop hd, filter_take hd,
    show ['.'].filter Char.isDigit = [] from rfl,
    show ['-'].filter Char.isDigit = [] from rfl,
    show ['/'].filter Char.isDigit = [] from rfl,
    List.nil_append, List.append_nil, List.append_assoc]
  rw [cover_cnpj hl, String_mk_data]


theorem CPF_clean_strip {n : Nat} (t : String) (h : stripOther t = natPad 11 n) :
    CPF.clean (.str t) = .ok (natPad 11 n) := by
  have hne : (stripOther t).data.isEmpty = false := by
    rw [h]
    exact List.isEmpty_eq_false.mpr (natPad_data_ne_nil 11 n)
  simp [CPF.clean, h, hne, strToNat_natPad, natPad_data_ne_nil 11 n]

theorem CNPJ_clean_strip {n : Nat} (t : String) (h : stripOther t = natPad 14 n) :
    CNPJ.clean (.str t) = .ok (natPad 14 n) := by
  have hne : (stripOther t).data.isEmpty = false := by
    rw [h]
    exact List.isEmpty_eq_false.mpr (natPad_data_ne_nil 14 n)
  simp [CNPJ.clean, h, hne, strToNat_natPad, natPad_data_ne_nil 14 n]

/-- Counterexample to C3 as stated: cleaning the digit-free string `abc`
does not produce the all-zero digit-string of the canonical width; the
`int('')` parse error is raised instead, for both types. -/
theorem clean_no_digits_cex :
    CPF.clean (.str "abc") ≠ .ok "00000000000" ∧
    CPF.clean (.str "abc") = .error .intParseErr ∧
    CNPJ.clean (.str "abc") ≠ .ok "00000000000000" ∧
    CNPJ.clean (.str "abc") = .error .intParseErr := by decide

/-- C3 amended: for every string containing no digit characters, `clean`
of both types strips every character and then fails with the parse error
of `int` applied to the empty remainder, rather than returning the
all-zero digit-string. -/
theorem clean_no_digits (s : String) (h : ∀ c ∈ s.data, c.isDigit = false) :
    CPF.clean (.str s) = .error .intParseErr ∧
    CNPJ.clean (.str s) = .error .intParseErr := by
  have he : (stripOther s).data = [] := by
    show s.data.filter Char.isDigit = []
    exact List.filter_eq_nil_iff.mpr (fun c hc => by simp [h c hc])
  have hne : (stripOther s).data.isEmpty = true := by
    rw [he]
    rfl
  constructor <;> simp [CPF.clean, CNPJ.clean, hne]

/-- Witness for the amended C3 at the digit-free string `abc`. -/
theorem clean_no_digits_witness :
    CPF.clean (.str "abc") = .error .intParseErr ∧
    CNPJ.clean (.str "abc") = .error .intParseErr :=
  clean_no_digits "abc" (by decide)

/-- Counterexample to C4 as stated: the CNPJ constructed from 10^14 (an
over-wide numeric input) formats to a punctuated string whose cleaning
does not recover `format "r"`. -/
theorem roundtrip_format_cex :
    CNPJ.init (.int (10 ^ 14)) = .ok (CNPJ.mk "100000000000000") ∧
    ((CNPJ.mk "100000000000000").format "f").bind (fun t => CNPJ.clean (.str t))
      ≠ (CNPJ.mk "100000000000000").format "r" := by decide

/-- C4 amended: for every constructed value whose stored digit-string has
the canonical width (every value below 10^11 resp. 10^14), cleaning the
canonical formatted representation recovers the raw representation. -/
theorem roundtrip_format :
    (∀ (v : PyArg) (c : CPF), CPF.init v = .ok c → c._cpf.length = 11 →
      (c.format "f").bind (fun t => CPF.clean (.str t)) = c.format "r") ∧
    (∀ (v : PyArg) (c : CNPJ), CNPJ.init v = .ok c → c._cnpj.length = 14 →
      (c.format "f").bind (fun t => CNPJ.clean (.str t)) = c.format "r") := by
  constructor
  · intro v c h hlen
    obtain ⟨n, hn⟩ := CPF_init_shape h
    have hd := natPad_all_digits 11 n
    have hl : (natPad 11 n).data.length = 11 := by
      rw [← hn]
      exact hlen
    have hstrip := cpf_formatted_strip hd hl
    have hfmt : c.format "f" = .ok (sliceStr (natPad 11 n) 0 3 ++ "." ++
        sliceStr (natPad 11 n) 3 6 ++ "." ++ sliceStr (natPad 11 n) 6 9 ++ "-" ++
        sliceStr (natPad 11 n) 9 11) := by
      rw [CPF.format, if_pos (Or.inr rfl), hn, CPF_clean_natPad]
      rfl
    rw [hfmt]
    have hb : ∀ X : String, (Except.ok X : Except PyErr String).bind
        (fun t => CPF.clean (.str t)) = CPF.clean (.str X) := fun X => rfl
    rw [hb, CPF_clean_strip _ hstrip, show c.format "r" = .ok c._cpf from rfl, hn]
  · intro v c h hlen
    obtain ⟨n, hn⟩ := CNPJ_init_shape h
    have hd := natPad_all_digits 14 n
    have hl : (natPad 14 n).data.length = 14 := by
      rw [← hn]
      exact hlen
    have hstrip := cnpj_formatted_strip hd hl
    have hfmt : c.format "f" = .ok (sliceStr (natPad 14 n) 0 2 ++ "." ++
        sliceStr (natPad 14 n) 2 5 ++ "." ++ sliceStr (natPad 14 n) 5 8 ++ "/" ++
        sliceStr (natPad 14 n) 8 12 ++ "-" ++ sliceStr (natPad 14 n) 12 14) := by
      rw [CNPJ.format, if_pos (Or.inr rfl), hn, CNPJ_clean_natPad]
      rfl
    rw [hfmt]
    have hb : ∀ X : String, (Except.ok X : Except PyErr String).bind
        (fun t => CNPJ.clean (.str t)) = CNPJ.clean (.str X) := fun X => rfl
    rw [hb, CNPJ_clean_strip _ hstrip, show c.format "r" = .ok c._cnpj from rfl, hn]

/-- Witness for the amended C4 at concrete canonical-width values of both
types. -/
theorem roundtrip_format_witness :
    ((CPF.mk "58119443659").format "f").bind (fun t => CPF.clean (.str t))
      = (CPF.mk "58119443659").format "r" ∧
    ((CNPJ.mk "58414462000135").format "f").bind (fun t => CNPJ.clean (.str t))
      = (CNPJ.mk "58414462000135").format "r" := by
  constructor
  · exact roundtrip_format.1 (.int 58119443659) _ (by decide) (by decide)
  · exact roundtrip_format.2 (.int 58414462000135) _ (by decide) (by decide)

/-- Counterexample to C5 as stated: constructing a CPF from the
12-digit integer 10^11 stores a 12-character digit-string. -/
theorem stored_width_cex :
    CPF.init (.int (10 ^ 11)) = .ok (CPF.mk "100000000000") ∧
    (CPF.mk "100000000000")._cpf.length ≠ 11 := by decide

/-- C5 amended: the stored digit-string always has at least the
canonical width (11 for CPF, 14 for CNPJ), is the zero-padded decimal
rendering of its own numeric value, and has exactly the canonical width
whenever that value is below 10^11 resp. 10^14. -/
theorem stored_width :
    (∀ (v : PyArg) (c : CPF), CPF.init v = .ok c →
      11 ≤ c._cpf.length ∧ c._cpf = natPad 11 (strToNat c._cpf) ∧
      (strToNat c._cpf < 10 ^ 11 → c._cpf.length = 11)) ∧
    (∀ (v : PyArg) (c : CNPJ), CNPJ.init v = .ok c →
      14 ≤ c._cnpj.length ∧ c._cnpj = natPad 14 (strToNat c._cnpj) ∧
      (strToNat c._cnpj < 10 ^ 14 → c._cnpj.length = 14)) := by
  constructor
  · intro v c h
    obtain ⟨n, hn⟩ := CPF_init_shape h
    refine ⟨CPF_stored_len h, ?_, ?_⟩
    · rw [hn, strToNat_natPad]
    · intro hb
      rw [hn, strToNat_natPad] at hb
      show c._cpf.data.length = 11
      rw [hn, natPad_len]
      have hle := natDigitsBE_len_le (by norm_num) hb
      omega
  · intro v c h
    obtain ⟨n, hn⟩ := CNPJ_init_shape h
    refine ⟨CNPJ_stored_len h, ?_, ?_⟩
    · rw [hn, strToNat_natPad]
    · intro hb
      rw [hn, strToNat_natPad] at hb
      show c._cnpj.data.length = 14
      rw [hn, natPad_len]
      have hle := natDigitsBE_len_le (by norm_num) hb
      omega

/-- Witness for the amended C5 at small concrete inputs of both types. -/
theorem stored_width_witness :
    (CPF.mk "00000000005")._cpf.length = 11 ∧
    14 ≤ (CNPJ.mk "00000000000005")._cnpj.length := by
  constructor
  · exact ((stored_width.1 (.int 5) _ (by decide)).2.2) (by decide)
  · exact (stored_width.2 (.int 5) _ (by decide)).1


/-- C1: for every 11-character decimal digit-string `s`, CPF validation
returns true iff the check digit `((Σ (i+1)·d i, i in 0..8) % 11) % 10`
equals digit 9 of `s` and the check digit
`((Σ i·d i, i in 1..9) % 11) % 10` equals digit 10 of `s` (the code
compares the two computed digits, rendered as a two-character decimal
string, against the trailing two characters). -/
theorem cpf_validate_check_digits (s : String) (h1 : s.length = 11)
    (h2 : ∀ c ∈ s.data, c.isDigit = true) :
    CPF.validate (.str s) = .ok (decide
      ((((List.range 9).map (fun i => (i + 1) * digAt s i)).sum % 11) % 10 = digAt s 9 ∧
       (((List.range' 1 9).map (fun i => i * digAt s i)).sum % 11) % 10 = digAt s 10)) := by
  have hl : s.data.length = 11 := h1
  have hv : CPF.validate (.str s) = (CPF.clean (.str s)).map CPF.checkStr := rfl
  rw [hv, CPF_clean_digit_str s hl h2]
  rw [show (Except.ok s).map CPF.checkStr = (.ok (CPF.checkStr s) : Except PyErr Bool) from rfl]
  rw [CPF_checkStr_eq s hl h2]

/-- Witness for C1: the hypotheses hold and the theorem applies at the
valid CPF digit-string 58119443659, where validation returns true. -/
theorem cpf_validate_check_digits_witness :
    CPF.validate (.str "58119443659") = .ok true := by
  rw [cpf_validate_check_digits "58119443659" (by decide) (by decide)]
  decide

/-- C2: for every 14-character decimal digit-string `s`, CNPJ validation
returns true iff, with the weight table `[6,5,4,3,2,9,8,7,6,5,4,3,2]`,
the first check digit (weighted sum of `table[i]·d (i-1)` for `i` in
1..12, reduced by `v = sum % 11; 11 - v if v > 1 else 0`) equals digit 12
and the second (weighted sum of `table[i]·d i` for `i` in 0..12, same
reduction) equals digit 13. -/
theorem cnpj_validate_check_digits (s : String) (h1 : s.length = 14)
    (h2 : ∀ c ∈ s.data, c.isDigit = true) :
    CNPJ.validate (.str s) = .ok (decide
      (CNPJ.mod11 (((List.range' 1 12).map
          (fun i => CNPJ.digitosValidacao.getD i 0 * digAt s (i - 1))).sum) = digAt s 12 ∧
       CNPJ.mod11 (((List.range 13).map
          (fun i => CNPJ.digitosValidacao.getD i 0 * digAt s i)).sum) = digAt s 13)) := by
  have hl : s.data.length = 14 := h1
  have hv : CNPJ.validate (.str s) = (CNPJ.clean (.str s)).map CNPJ.checkStr := rfl
  rw [hv, CNPJ_clean_digit_str s hl h2]
  rw [show (Except.ok s).map CNPJ.checkStr = (.ok (CNPJ.checkStr s) : Except PyErr Bool) from rfl]
  rw [CNPJ_checkStr_eq s hl h2]

/-- Witness for C2: the hypotheses hold and the theorem applies at the
valid CNPJ digit-string 58414462000135, where validation returns true. -/
theorem cnpj_validate_check_digits_witness :
    CNPJ.validate (.str "58414462000135") = .ok true := by
  rw [cnpj_validate_check_digits "58414462000135" (by decide) (by decide)]
  decide

/-- C6: the default-constructed (all-zero) value of each type is both
empty and valid. -/
theorem default_empty_valid :
    (CPF.init (.int 0)).map (fun c => (c.empty, c.valid)) = .ok (true, .ok true) ∧
    (CNPJ.init (.int 0)).map (fun c => (c.empty, c.valid)) = .ok (true, .ok true) := by
  constructor <;> rfl

/-- C8: CNPJ class-level validation of `None` returns false without
raising. -/
theorem cnpj_validate_none : CNPJ.validate PyArg.null = .ok false := rfl

/-- C10: CPF class-level validation of `None` returns false without
raising. -/
theorem cpf_validate_none : CPF.validate PyArg.null = .ok false := rfl

end BrazilTypes
